import Mathlib

/-!
Verification of the remote-image import proxy (`api/image-proxy.js`).

The JavaScript source is shallowly embedded: every function of the file
(`isPrivateIpv4`, `isPrivateIpv6`, `isPrivateIp`, `isBlockedHost`,
`validateUrl`, `readStreamWithLimit`, `fetchWithRedirects`, `handler`)
becomes an executable Lean definition.  Platform services are modelled
explicitly:

* DNS (`dns.lookup` with `all: true`) is an oracle `Dns` mapping a
  hostname to `some` list of address strings, or `none` for a resolution
  failure;
* the network (`fetch` with `redirect: 'manual'`) is an oracle `Net`
  mapping a URL string to a response, a transport failure, or an abort
  of the shared deadline signal;
* `net.isIP`, the WHATWG `URL` constructor and JavaScript string and
  number primitives are modelled by the definitions below, each faithful
  to the documented behaviour on the inputs that occur in this program.

Effects that the specification talks about are made observable: the
embedded `isBlockedHost` also returns the list of DNS queries it issued,
the embedded fetch loop also returns the list of URLs actually fetched,
and the embedded body reader also returns how many body bytes were
buffered.
-/

/-! ## Constants (lines 4-7 of the source) -/

def MAX_BYTES : Nat := 10 * 1024 * 1024

def TIMEOUT_MS : Nat := 8000

def MAX_REDIRECTS : Nat := 5

def REDIRECT_STATUSES : List Nat := [301, 302, 303, 307, 308]

/-! ## JavaScript string primitives -/

/-- ASCII lowercasing, modelling `String.prototype.toLowerCase` (all
strings in this development are ASCII). -/
def jsToLower (s : String) : String :=
  String.mk (s.data.map Char.toLower)

/-- `pat.isPrefixOf l` for character lists, written out so that proofs can
compute with it. -/
def listLeads : List Char → List Char → Bool
  | [], _ => true
  | _ :: _, [] => false
  | p :: ps, x :: xs => (p == x) && listLeads ps xs

/-- Models `String.prototype.startsWith`. -/
def strStartsWith (s pat : String) : Bool :=
  listLeads pat.data s.data

/-- Models `String.prototype.endsWith`. -/
def strEndsWith (s pat : String) : Bool :=
  listLeads pat.data.reverse s.data.reverse

/-- Split a character list on a separator character; `splitOnChar c []`
is `[[]]`, matching JavaScript `"".split(c)` = `[""]`. -/
def splitOnChar (c : Char) : List Char → List (List Char)
  | [] => [[]]
  | x :: xs =>
    if x = c then [] :: splitOnChar c xs
    else
      match splitOnChar c xs with
      | [] => [[x]]
      | g :: gs => (x :: g) :: gs

/-- Models `String.prototype.split('.')`. -/
def jsSplitDot (s : String) : List String :=
  (splitOnChar '.' s.data).map (fun g => String.mk g)

/-- Replace the first occurrence of `pat` in a character list. -/
def replaceFirstAux (pat repl : List Char) : List Char → List Char
  | [] => []
  | x :: xs =>
    if listLeads pat (x :: xs) then repl ++ (x :: xs).drop pat.length
    else x :: replaceFirstAux pat repl xs

/-- Models `String.prototype.replace` with a string pattern (first
occurrence only, as in JavaScript). -/
def replaceFirst (s pat repl : String) : String :=
  String.mk (replaceFirstAux pat.data repl.data s.data)

/-- Numeric value of a list of decimal digit characters. -/
def digitsToNat (cs : List Char) : Nat :=
  cs.foldl (fun acc c => acc * 10 + (c.toNat - 48)) 0

/-- Models the JavaScript `Number` conversion on the strings this program
feeds to it: the empty string converts to `0` and a string of decimal
digits to its value; every other string occurring here (letters, hex
groups with colons, and similar) converts to NaN, modelled as `none`. -/
def jsNumber (s : String) : Option Nat :=
  if s = "" then some 0
  else if s.data.all Char.isDigit then some (digitsToNat s.data)
  else none

/-- JavaScript truthiness of `headers.get(...)`: `null` and `""` are
falsy, every other string is truthy. -/
def jsTruthy : Option String → Bool
  | none => false
  | some s => s ≠ ""

/-- JavaScript `>` between a possibly-NaN number and a number: any
comparison with NaN is false. -/
def jsGt (x : Option Nat) (bound : Nat) : Bool :=
  match x with
  | none => false
  | some n => decide (bound < n)

/-! ## Node `net.isIP`: strict textual IPv4/IPv6 address validation -/

/-- Value of one hexadecimal digit, case-insensitive. -/
def hexVal (c : Char) : Option Nat :=
  if c.isDigit then some (c.toNat - 48)
  else if 'a' ≤ c ∧ c ≤ 'f' then some (c.toNat - 87)
  else if 'A' ≤ c ∧ c ≤ 'F' then some (c.toNat - 55)
  else none

/-- One dotted-quad part: nonempty decimal digits, no leading zero
(except "0" itself), value at most 255.  Node's `net.isIP` is strict in
exactly this way. -/
def ipv4PartOk (g : List Char) : Bool :=
  !g.isEmpty && g.all Char.isDigit &&
    decide (g.head? = some '0' → g.length = 1) && decide (digitsToNat g ≤ 255)

/-- Models `net.isIP(s) === 4`: parse a strict dotted-quad IPv4 literal
into its four octets. -/
def parseIPv4 (s : String) : Option (List Nat) :=
  match splitOnChar '.' s.data with
  | [p1, p2, p3, p4] =>
    if ipv4PartOk p1 && ipv4PartOk p2 && ipv4PartOk p3 && ipv4PartOk p4 then
      some [digitsToNat p1, digitsToNat p2, digitsToNat p3, digitsToNat p4]
    else none
  | _ => none

/-- One IPv6 group: one to four hex digits. -/
def ipv6GroupVal (g : List Char) : Option Nat :=
  if g ≠ [] ∧ g.length ≤ 4 ∧ g.all (fun c => (hexVal c).isSome) then
    some (g.foldl (fun acc c => acc * 16 + ((hexVal c).getD 0)) 0)
  else none

/-- Parse a colon-separated group list into 16-bit values; an embedded
dotted-quad tail (as in `::ffff:1.2.3.4`) is allowed only as the last
group when `v4Tail` is set and contributes two 16-bit values. -/
def parseIPv6Groups (v4Tail : Bool) : List (List Char) → Option (List Nat)
  | [] => some []
  | [g] =>
    if v4Tail && g.contains '.' then
      match parseIPv4 (String.mk g) with
      | some [a, b, c, d] => some [a * 256 + b, c * 256 + d]
      | _ => none
    else (ipv6GroupVal g).map (fun v => [v])
  | g :: gs =>
    match ipv6GroupVal g, parseIPv6Groups v4Tail gs with
    | some v, some vs => some (v :: vs)
    | _, _ => none

/-- Locate the first `::` in a character list, returning the parts
before and after it. -/
def findDoubleColon : List Char → Option (List Char × List Char)
  | ':' :: ':' :: rest => some ([], rest)
  | x :: rest => (findDoubleColon rest).map (fun p => (x :: p.1, p.2))
  | [] => none

/-- Models `net.isIP(s) === 6`: parse an IPv6 literal into its eight
16-bit groups (zero-compression `::` and an embedded IPv4 tail are
supported; brackets are not part of an address and make the parse
fail). -/
def parseIPv6 (s : String) : Option (List Nat) :=
  let cs := (jsToLower s).data
  match findDoubleColon cs with
  | none =>
    match parseIPv6Groups true (splitOnChar ':' cs) with
    | some vs => if vs.length = 8 then some vs else none
    | none => none
  | some (l, r) =>
    let lg := if l = [] then some [] else parseIPv6Groups false (splitOnChar ':' l)
    let rg := if r = [] then some [] else parseIPv6Groups true (splitOnChar ':' r)
    match lg, rg with
    | some lv, some rv =>
      if lv.length + rv.length ≤ 7 then
        some (lv ++ List.replicate (8 - lv.length - rv.length) 0 ++ rv)
      else none
    | _, _ => none

/-- Models Node's `net.isIP`: `4` for an IPv4 literal, `6` for an IPv6
literal, `0` otherwise. -/
def isIP (s : String) : Nat :=
  if (parseIPv4 s).isSome then 4
  else if (parseIPv6 s).isSome then 6
  else 0

/-! ## IP privacy classifiers (source lines 9-66) -/

/-- The body of `isPrivateIpv4` after `ip.split('.').map(Number)`
(source lines 11-36): a part list that is not exactly four numbers is
treated as private (the `parts.length !== 4 || parts.some(isNaN)`
guard), otherwise the blocked ranges are tested octet-wise. -/
def isPrivateIpv4Parts : List (Option Nat) → Bool
  | [some a, some b, some c, some _d] =>
    if a = 10 ∨ a = 127 ∨ a = 0 then true
    else if a = 169 ∧ b = 254 then true
    else if a = 172 ∧ 16 ≤ b ∧ b ≤ 31 then true
    else if a = 192 ∧ b = 168 then true
    else if a = 100 ∧ 64 ≤ b ∧ b ≤ 127 then true
    else if (a = 192 ∧ b = 0 ∧ c = 2) ∨ (a = 198 ∧ b = 51 ∧ c = 100) then true
    else if a = 203 ∧ b = 0 ∧ c = 113 then true
    else false
  | _ => true

/-- `isPrivateIpv4` (source lines 9-37). -/
def isPrivateIpv4 (ip : String) : Bool :=
  isPrivateIpv4Parts ((jsSplitDot ip).map jsNumber)

/-- `isPrivateIpv6` (source lines 39-55). -/
def isPrivateIpv6 (ip : String) : Bool :=
  let normalized := jsToLower ip
  if normalized = "::1" ∨ normalized = "::" then true
  else if strStartsWith normalized "fe80:" then true
  else if strStartsWith normalized "fc" || strStartsWith normalized "fd" then true
  else if strStartsWith normalized "::ffff:" then
    isPrivateIpv4 (replaceFirst normalized "::ffff:" "")
  else false

/-- `isPrivateIp` (source lines 57-66): dispatch on `net.isIP`; anything
that is neither a valid IPv4 nor a valid IPv6 literal is private. -/
def isPrivateIp (ip : String) : Bool :=
  let version := isIP ip
  if version = 4 then isPrivateIpv4 ip
  else if version = 6 then isPrivateIpv6 ip
  else true

/-! ## Host safety check (source lines 68-85) -/

/-- DNS oracle: models `dns.lookup(hostname, { all: true })`, returning
`some` list of address strings or `none` when resolution fails with any
error (NXDOMAIN, timeout, ...). -/
def Dns : Type := String → Option (List String)

/-- `isBlockedHost` (source lines 68-85).  The second component records
the DNS queries issued, so that "no DNS lookup happens" is a provable
statement; the source performs a lookup exactly when the list is
nonempty. -/
def isBlockedHost (dns : Dns) (hostname : String) : Bool × List String :=
  if hostname = "" then (true, [])
  else
    let lower := jsToLower hostname
    if lower = "localhost" ∨ strEndsWith lower ".localhost" ∨ strEndsWith lower ".local" then
      (true, [])
    else if isIP hostname ≠ 0 then (isPrivateIp hostname, [])
    else
      match dns hostname with
      | some lookups => (lookups.any (fun entry => isPrivateIp entry), [hostname])
      | none => (true, [hostname])

/-! ## WHATWG URL model

Models the `URL` constructor on the subset this program exercises:
absolute `http`/`https` URLs with an optional userinfo, a host that is a
DNS name, an IPv4 literal, or a bracketed IPv6 literal, an optional
port, and an opaque remainder (path, query and fragment are never
inspected by the program, only carried along).  As in WHATWG parsing,
scheme and host are lowercased, a bracketed IPv6 host keeps its brackets
in `hostname`, and the default port is dropped.  A URL with any other
scheme parses to a record whose `protocol` is that scheme; `validateUrl`
rejects every such record by its protocol check, exactly as the source
does, so nothing else about it is modelled. -/

structure URLRec where
  protocol : String
  hostname : String
  port : String
  rest : String
deriving DecidableEq, Repr

def schemeCharOk (c : Char) : Bool :=
  c.isAlphanum || c == '+' || c == '-' || c == '.'

def forbiddenHostChar (c : Char) : Bool :=
  c == ' ' || c == '#' || c == '/' || c == ':' || c == '?' || c == '@' ||
  c == '[' || c == ']' || c == '\\' || c == '^' || c == '|' || c == '<' || c == '>'

/-- The part of an authority after the last `@` (WHATWG strips
userinfo). -/
def afterLastAt (cs : List Char) : List Char :=
  cs.foldl (fun acc c => if c = '@' then [] else acc ++ [c]) []

/-- WHATWG serialization omits the default port of the scheme. -/
def stripDefaultPort (protocol port : String) : String :=
  if (protocol = "http:" ∧ port = "80") ∨ (protocol = "https:" ∧ port = "443") then ""
  else port

def parseHostPort (protocol : String) (hostPort : List Char) : Option (String × String) :=
  match hostPort with
  | '[' :: more =>
    let inner := more.takeWhile (fun c => c != ']')
    match more.dropWhile (fun c => c != ']') with
    | ']' :: afterBr =>
      if (parseIPv6 (String.mk inner)).isSome then
        let host := "[" ++ String.mk (inner.map Char.toLower) ++ "]"
        match afterBr with
        | [] => some (host, "")
        | ':' :: p =>
          if p.all Char.isDigit then some (host, stripDefaultPort protocol (String.mk p))
          else none
        | _ => none
      else none
    | _ => none
  | _ =>
    let host := hostPort.takeWhile (fun c => c != ':')
    if host = [] ∨ host.any forbiddenHostChar then none
    else
      let hostStr := String.mk (host.map Char.toLower)
      match hostPort.dropWhile (fun c => c != ':') with
      | [] => some (hostStr, "")
      | ':' :: p =>
        if p.all Char.isDigit then some (hostStr, stripDefaultPort protocol (String.mk p))
        else none
      | _ => none

/-- Models `new URL(s)` (see the module comment above this section). -/
def parseURL (s : String) : Option URLRec :=
  let cs := s.data
  match cs.dropWhile (fun c => c != ':') with
  | ':' :: afterColon =>
    match cs.takeWhile (fun c => c != ':') with
    | [] => none
    | c0 :: rest0 =>
      if c0.isAlpha ∧ (c0 :: rest0).all schemeCharOk then
        let protocol := String.mk ((c0 :: rest0).map Char.toLower) ++ ":"
        if protocol = "http:" ∨ protocol = "https:" then
          match afterColon with
          | '/' :: '/' :: rest2 =>
            let auth := rest2.takeWhile (fun c => c != '/' && c != '?' && c != '#')
            let pathPart := rest2.dropWhile (fun c => c != '/' && c != '?' && c != '#')
            match parseHostPort protocol (afterLastAt auth) with
            | some (host, port) => some ⟨protocol, host, port, String.mk pathPart⟩
            | none => none
          | _ => none
        else some ⟨protocol, "", "", String.mk afterColon⟩
      else none
  | _ => none

/-- Models `URL#toString` on validated (http/https) URL records. -/
def urlToString (u : URLRec) : String :=
  u.protocol ++ "//" ++ u.hostname ++ (if u.port = "" then "" else ":" ++ u.port) ++
    (if u.rest = "" then "/" else u.rest)

/-- Keep everything up to and including the last `/`. -/
def dropAfterLastSlash (cs : List Char) : List Char :=
  (cs.reverse.dropWhile (fun c => c != '/')).reverse

/-- Relative-path merge of WHATWG resolution. -/
def mergeRelPath (rest loc : String) : String :=
  let pruned := dropAfterLastSlash rest.data
  if pruned = [] then "/" ++ loc else String.mk pruned ++ loc

/-- Models `new URL(loc, base)`: an absolute `loc` stands alone, a
protocol-relative `loc` takes the base scheme, a rooted `loc` replaces
the path, anything else is merged with the base path. -/
def resolveURL (loc : String) (base : URLRec) : Option URLRec :=
  match parseURL loc with
  | some u => some u
  | none =>
    if strStartsWith loc "//" then parseURL (base.protocol ++ loc)
    else if strStartsWith loc "/" then some { base with rest := loc }
    else some { base with rest := mergeRelPath base.rest loc }

/-! ## Error taxonomy

One constructor per distinct thrown error of the source (`INVALID_URL`,
`BLOCKED_HOST`, `REDIRECT_ERROR`, `TOO_MANY_REDIRECTS`, `MAX_SIZE`,
`NO_BODY`), plus `networkError` for any other rejection of `fetch` and
`aborted` for an `AbortError` raised when the shared 8-second deadline
signal fires. -/

inductive Err where
  | invalidUrl
  | blockedHost
  | redirectError
  | tooManyRedirects
  | networkError
  | aborted
  | maxSize
  | noBody
deriving DecidableEq, Repr

/-! ## URL validation (source lines 87-101) -/

/-- `validateUrl` (source lines 87-101). -/
def validateUrl (dns : Dns) (value : String) : Except Err URLRec :=
  match parseURL value with
  | none => .error .invalidUrl
  | some parsed =>
    if parsed.protocol ≠ "http:" ∧ parsed.protocol ≠ "https:" then .error .invalidUrl
    else if (isBlockedHost dns parsed.hostname).1 then .error .blockedHost
    else .ok parsed

/-! ## Network model -/

/-- An HTTP response as the source observes it: status, the `location`,
`content-type` and `content-length` headers (`none` = header absent),
and the body as a stream of byte chunks (`none` = null body). -/
structure Response where
  status : Nat
  location : Option String
  contentType : Option String
  contentLength : Option String
  body : Option (List (List Nat))
deriving DecidableEq, Repr

/-- Outcome of one `fetch` call: a response, a transport-level
rejection, or an `AbortError` from the deadline signal. -/
inductive FetchOutcome where
  | success (response : Response)
  | netFail
  | aborted
deriving DecidableEq, Repr

/-- Network oracle: what `fetch` does for each URL string. -/
def Net : Type := String → FetchOutcome

/-! ## Redirect-following fetch (source lines 124-149) -/

/-- Body of the `for (index = 0; index <= MAX_REDIRECTS; ...)` loop of
`fetchWithRedirects`, with the remaining iteration count as fuel and the
list of URLs fetched so far threaded through.  Each iteration validates
`current` before fetching; a redirect status takes the `location` header
(a missing or empty value is falsy and raises `REDIRECT_ERROR`),
resolves it against the current URL and loops.  Exhausted fuel is the
loop exiting and throwing `TOO_MANY_REDIRECTS`. -/
def fetchLoop (dns : Dns) (net : Net) :
    Nat → String → List String → Except Err Response × List String
  | 0, _, trace => (.error .tooManyRedirects, trace)
  | fuel + 1, current, trace =>
    match validateUrl dns current with
    | .error e => (.error e, trace)
    | .ok validated =>
      let target := urlToString validated
      match net target with
      | .netFail => (.error .networkError, trace ++ [target])
      | .aborted => (.error .aborted, trace ++ [target])
      | .success response =>
        if response.status ∈ REDIRECT_STATUSES then
          match response.location with
          | none => (.error .redirectError, trace ++ [target])
          | some loc =>
            if loc = "" then (.error .redirectError, trace ++ [target])
            else
              match resolveURL loc validated with
              | none => (.error .invalidUrl, trace ++ [target])
              | some next => fetchLoop dns net fuel (urlToString next) (trace ++ [target])
        else (.ok response, trace ++ [target])

/-- `fetchWithRedirects` (source lines 124-149), also returning the list
of URLs actually fetched, in order. -/
def fetchWithRedirects (dns : Dns) (net : Net) (url : String) :
    Except Err Response × List String :=
  fetchLoop dns net (MAX_REDIRECTS + 1) url []

/-! ## Bounded body reader (source lines 103-122) -/

/-- The `while` loop of `readStreamWithLimit`: `total` is the running
byte count, `chunks` the buffered chunks.  The second component of the
result is the number of bytes actually buffered when the loop stops
(the chunk that overflows the ceiling is counted but never pushed). -/
def readLoop : List (List Nat) → Nat → List (List Nat) → Except Err (List Nat) × Nat
  | [], total, chunks => (.ok chunks.flatten, total)
  | value :: restStream, total, chunks =>
    let total2 := total + value.length
    if MAX_BYTES < total2 then (.error .maxSize, total)
    else readLoop restStream total2 (chunks ++ [value])

/-- `readStreamWithLimit` (source lines 103-122): a null body raises
`NO_BODY`, otherwise the stream is read chunk by chunk under the byte
ceiling and the concatenation of the buffered chunks is returned. -/
def readStreamWithLimit : Option (List (List Nat)) → Except Err (List Nat) × Nat
  | none => (.error .noBody, 0)
  | some stream => readLoop stream 0 []

/-! ## Request handler (source lines 151-200) -/

inductive BodyVal where
  | text (s : String)
  | bytes (b : List Nat)
deriving DecidableEq, Repr

structure HttpResponse where
  status : Nat
  body : BodyVal
  headers : List (String × String)
deriving DecidableEq, Repr

/-- Observable effects of one handled request: the URLs fetched and
whether the body-reading stage was entered. -/
structure HandlerTrace where
  fetched : List String
  bodyRead : Bool
deriving DecidableEq, Repr

/-- The `catch` block of the handler (source lines 185-196): an
`AbortError` becomes 504, `MAX_SIZE` becomes 413, every other failure
becomes the generic 400. -/
def errorResponse : Err → HttpResponse
  | .aborted => ⟨504, .text "Timeout", []⟩
  | .maxSize => ⟨413, .text "Image too large", []⟩
  | _ => ⟨400, .text "Unable to fetch image", []⟩

/-- `handler` (source lines 151-200), paired with its observable
effects.  `queryUrl` is `req.query.url`: `none` models an absent or
non-string value. -/
def handlerT (dns : Dns) (net : Net) (method : String) (queryUrl : Option String) :
    HttpResponse × HandlerTrace :=
  if method ≠ "GET" then (⟨405, .text "Method not allowed", []⟩, ⟨[], false⟩)
  else
    match queryUrl with
    | none => (⟨400, .text "Missing url", []⟩, ⟨[], false⟩)
    | some rawUrl =>
      if rawUrl = "" then (⟨400, .text "Missing url", []⟩, ⟨[], false⟩)
      else
        match fetchWithRedirects dns net rawUrl with
        | (.error e, fetched) => (errorResponse e, ⟨fetched, false⟩)
        | (.ok response, fetched) =>
          let contentType := response.contentType.getD ""
          if strStartsWith (jsToLower contentType) "image/" then
            if jsTruthy response.contentLength &&
                jsGt (jsNumber (response.contentLength.getD "")) MAX_BYTES then
              (⟨413, .text "Image too large", []⟩, ⟨fetched, false⟩)
            else
              match readStreamWithLimit response.body with
              | (.error e, _) => (errorResponse e, ⟨fetched, true⟩)
              | (.ok body, _) =>
                (⟨200, .bytes body,
                  [("Content-Type", contentType),
                   ("Cache-Control", "public, max-age=86400"),
                   ("Content-Length", Nat.repr body.length)]⟩, ⟨fetched, true⟩)
          else (⟨400, .text "Not an image", []⟩, ⟨fetched, false⟩)

/-- The handler's HTTP response alone. -/
def handler (dns : Dns) (net : Net) (method : String) (queryUrl : Option String) :
    HttpResponse :=
  (handlerT dns net method queryUrl).1

/-! ## Spec-side range predicates

These two definitions follow the specification's words (§4.2), not the
source, and exist to be compared with the classifiers above: the
blocked IPv4 CIDR ranges written octet-wise, and membership of a parsed
IPv6 address in the link-local range `fe80::/10`. -/

/-- Spec §4.2, IPv4: `0.0.0.0/8`, `10.0.0.0/8`, `127.0.0.0/8`,
`169.254.0.0/16`, `172.16.0.0/12`, `192.168.0.0/16`, `100.64.0.0/10`,
`192.0.2.0/24`, `198.51.100.0/24`, `203.0.113.0/24`, as constraints on
the four octets. -/
def SpecPrivateIpv4 (a b c _d : Nat) : Prop :=
  a = 0 ∨ a = 10 ∨ a = 127 ∨ (a = 169 ∧ b = 254) ∨ (a = 172 ∧ 16 ≤ b ∧ b ≤ 31) ∨
    (a = 192 ∧ b = 168) ∨ (a = 100 ∧ 64 ≤ b ∧ b ≤ 127) ∨ (a = 192 ∧ b = 0 ∧ c = 2) ∨
    (a = 198 ∧ b = 51 ∧ c = 100) ∨ (a = 203 ∧ b = 0 ∧ c = 113)

instance (a b c d : Nat) : Decidable (SpecPrivateIpv4 a b c d) := by
  unfold SpecPrivateIpv4; infer_instance

/-- Spec §4.2, IPv6: the parsed group list lies in `fe80::/10`, i.e.
its first 16-bit group is in `[0xfe80, 0xfebf]` (first ten bits
`1111111010`). -/
def ipv6InFe80Slash10 (groups : List Nat) : Bool :=
  match groups with
  | g :: _ => decide (0xfe80 ≤ g) && decide (g ≤ 0xfebf)
  | [] => false

/-- The standard dotted-quad rendering of four octets. -/
def renderIpv4 (a b c d : Nat) : String :=
  Nat.repr a ++ "." ++ Nat.repr b ++ "." ++ Nat.repr c ++ "." ++ Nat.repr d

/-! ## Concrete oracles and scenarios used by the witnesses -/

/-- DNS oracle with no resolvable names. -/
def dnsEmpty : Dns := fun _ => none

/-- DNS oracle: one name with a mixed public/private answer, one name
resolving only to a private address, everything else failing. -/
def dnsMix : Dns := fun h =>
  if h = "mixed.example" then some ["93.184.216.34", "10.0.0.1"]
  else if h = "internal.test" then some ["10.0.0.1"]
  else none

/-- The URLs of the redirect-chain scenarios: six public literal-IP
hosts. -/
def chainUrl (i : Nat) : String := "http://1.0.0." ++ Nat.repr i ++ "/img"

def imageResponse : Response :=
  ⟨200, none, some "image/png", some "3", some [[10, 20, 30]]⟩

def redirectResponse (target : String) : Response :=
  ⟨302, some target, none, none, none⟩

/-- A chain of exactly 5 redirects ending in a valid public image. -/
def net5 : Net := fun u =>
  if u = chainUrl 0 then .success (redirectResponse (chainUrl 1))
  else if u = chainUrl 1 then .success (redirectResponse (chainUrl 2))
  else if u = chainUrl 2 then .success (redirectResponse (chainUrl 3))
  else if u = chainUrl 3 then .success (redirectResponse (chainUrl 4))
  else if u = chainUrl 4 then .success (redirectResponse (chainUrl 5))
  else if u = chainUrl 5 then .success imageResponse
  else .netFail

/-- A chain of 6 redirects; the image at `chainUrl 6` is never
reached. -/
def net6 : Net := fun u =>
  if u = chainUrl 0 then .success (redirectResponse (chainUrl 1))
  else if u = chainUrl 1 then .success (redirectResponse (chainUrl 2))
  else if u = chainUrl 2 then .success (redirectResponse (chainUrl 3))
  else if u = chainUrl 3 then .success (redirectResponse (chainUrl 4))
  else if u = chainUrl 4 then .success (redirectResponse (chainUrl 5))
  else if u = chainUrl 5 then .success (redirectResponse (chainUrl 6))
  else if u = chainUrl 6 then .success imageResponse
  else .netFail

/-- A single public URL used by the single-response scenarios. -/
def okUrl : String := "http://1.0.0.9/a"

/-- Every fetch yields an HTML page. -/
def netNotImage : Net := fun _ => .success ⟨200, none, some "text/html", none, some [[1]]⟩

/-- Every fetch is aborted by the deadline signal. -/
def netAbort : Net := fun _ => .aborted

/-- One chunk of `MAX_BYTES + 1` zero bytes. -/
def bigChunk : List Nat := List.replicate (MAX_BYTES + 1) 0

/-- An image response without `Content-Length` whose stream exceeds the
ceiling. -/
def bigResponse : Response := ⟨200, none, some "image/png", none, some [bigChunk]⟩

def netBig : Net := fun _ => .success bigResponse

/-- An image response whose `Content-Length` header exceeds the
ceiling. -/
def clResponse : Response := ⟨200, none, some "image/png", some "99999999", some []⟩

def netBigCL : Net := fun _ => .success clResponse

/-- Total length of a chunk stream in bytes. -/
def sumLens (stream : List (List Nat)) : Nat :=
  (stream.map List.length).sum

/-! # Theorems -/

/-! ## String helper lemmas -/

theorem strDataApp (s t : String) : (s ++ t).data = s.data ++ t.data :=
  String.data_append s t

theorem splitOnChar_noSep (c : Char) (xs : List Char) (h : c ∉ xs) :
    splitOnChar c xs = [xs] := by
  induction xs with
  | nil => rfl
  | cons x xs ih =>
    simp only [List.mem_cons, not_or] at h
    have hx : ¬ x = c := fun hc => h.1 hc.symm
    simp only [splitOnChar, if_neg hx, ih h.2]

theorem splitOnChar_sep (c : Char) (xs ys : List Char) (h : c ∉ xs) :
    splitOnChar c (xs ++ c :: ys) = xs :: splitOnChar c ys := by
  induction xs with
  | nil =>
    simp [splitOnChar]
  | cons x xs ih =>
    simp only [List.mem_cons, not_or] at h
    have hx : ¬ x = c := fun hc => h.1 hc.symm
    simp only [List.cons_append, splitOnChar, if_neg hx, List.append_eq, ih h.2]

set_option maxRecDepth 10000 in
theorem jsNumber_repr : ∀ n, n < 256 → jsNumber (Nat.repr n) = some n := by decide

set_option maxRecDepth 10000 in
theorem dot_not_mem_repr : ∀ n, n < 256 → '.' ∉ (Nat.repr n).data := by decide

set_option maxRecDepth 10000 in
theorem ipv4PartOk_repr :
    ∀ n, n < 256 → ipv4PartOk (Nat.repr n).data = true ∧ digitsToNat (Nat.repr n).data = n := by
  decide

set_option maxRecDepth 10000 in
theorem toLower_repr : ∀ n, n < 256 → (Nat.repr n).data.map Char.toLower = (Nat.repr n).data := by
  decide

theorem renderIpv4_data (a b c d : Nat) :
    (renderIpv4 a b c d).data =
      (Nat.repr a).data ++ '.' ::
        ((Nat.repr b).data ++ '.' :: ((Nat.repr c).data ++ '.' :: (Nat.repr d).data)) := by
  simp [renderIpv4, strDataApp]

theorem splitDot_render (a b c d : Nat) (ha : a < 256) (hb : b < 256) (hc : c < 256)
    (hd : d < 256) :
    splitOnChar '.' (renderIpv4 a b c d).data =
      [(Nat.repr a).data, (Nat.repr b).data, (Nat.repr c).data, (Nat.repr d).data] := by
  rw [renderIpv4_data, splitOnChar_sep _ _ _ (dot_not_mem_repr a ha),
    splitOnChar_sep _ _ _ (dot_not_mem_repr b hb),
    splitOnChar_sep _ _ _ (dot_not_mem_repr c hc),
    splitOnChar_noSep _ _ (dot_not_mem_repr d hd)]

theorem jsSplitDot_render (a b c d : Nat) (ha : a < 256) (hb : b < 256) (hc : c < 256)
    (hd : d < 256) :
    jsSplitDot (renderIpv4 a b c d) = [Nat.repr a, Nat.repr b, Nat.repr c, Nat.repr d] := by
  simp only [jsSplitDot, splitDot_render a b c d ha hb hc hd, List.map]

/-! ## Claims C3 and C5: the host-safety check -/

/-- C3: for every hostname that is a literal IP address, the host-safety
check classifies the address directly without performing any DNS lookup
(the only branch of `isBlockedHost` that queries DNS requires
`net.isIP(hostname)` to be `0`); the literal targets `127.0.0.1`,
`169.254.169.254`, `::1` and `fc00::1` are rejected with an empty DNS
query list, under every DNS oracle. -/
theorem claim_C3_literal_ip_no_dns :
    (∀ dns hostname, isIP hostname = 0 ∨ (isBlockedHost dns hostname).2 = []) ∧
    (∀ dns, isBlockedHost dns "127.0.0.1" = (true, []) ∧
      isBlockedHost dns "169.254.169.254" = (true, []) ∧
      isBlockedHost dns "::1" = (true, []) ∧
      isBlockedHost dns "fc00::1" = (true, [])) := by
  constructor
  · intro dns hostname
    by_cases h0 : isIP hostname = 0
    · exact Or.inl h0
    · refine Or.inr ?_
      simp only [isBlockedHost]
      split_ifs with h1 h2
      · rfl
      · rfl
      · rfl
  · intro dns
    exact ⟨rfl, rfl, rfl, rfl⟩

/-- C5: for a DNS-name hostname (nonempty, no blocked local-name
pattern, not an IP literal), `isBlockedHost` resolves it and blocks it
iff any resolved address is private, and a resolution failure produces
exactly the same blocked outcome. -/
theorem claim_C5_dns_any_private (dns : Dns) (h : String) (l : List String)
    (hne : h ≠ "") (hlo : jsToLower h ≠ "localhost")
    (hl1 : strEndsWith (jsToLower h) ".localhost" = false)
    (hl2 : strEndsWith (jsToLower h) ".local" = false)
    (hip : isIP h = 0) :
    (dns h = some l →
      isBlockedHost dns h = (l.any (fun entry => isPrivateIp entry), [h])) ∧
    (dns h = none → isBlockedHost dns h = (true, [h])) := by
  constructor <;> intro hd <;>
    simp [isBlockedHost, hne, hlo, hl1, hl2, hip, hd]

/-- Witness for C5: a mixed public/private DNS answer is blocked, and an
unresolvable name is blocked with the same outcome. -/
theorem claim_C5_witness :
    isBlockedHost dnsMix "mixed.example" = (true, ["mixed.example"]) ∧
    isBlockedHost dnsMix "nxdomain.example" = (true, ["nxdomain.example"]) := by
  constructor
  · rw [(claim_C5_dns_any_private dnsMix "mixed.example" ["93.184.216.34", "10.0.0.1"]
      (by decide) (by decide) (by decide) (by decide) (by decide)).1 rfl]
    decide
  · exact (claim_C5_dns_any_private dnsMix "nxdomain.example" []
      (by decide) (by decide) (by decide) (by decide) (by decide)).2 rfl

/-! ## IPv4 classifier versus the spec ranges -/

theorem isPrivateIpv4_render (a b c d : Nat) (ha : a < 256) (hb : b < 256) (hc : c < 256)
    (hd : d < 256) :
    isPrivateIpv4 (renderIpv4 a b c d) = true ↔ SpecPrivateIpv4 a b c d := by
  simp only [isPrivateIpv4, jsSplitDot_render a b c d ha hb hc hd]
  rw [List.map_cons, List.map_cons, List.map_cons, List.map_cons, List.map_nil,
    jsNumber_repr a ha, jsNumber_repr b hb, jsNumber_repr c hc, jsNumber_repr d hd]
  simp only [isPrivateIpv4Parts]
  unfold SpecPrivateIpv4
  split_ifs with h1 h2 h3 h4 h5 h6 h7
  · refine iff_of_true rfl ?_
    rcases h1 with h | h | h
    · exact .inr (.inl h)
    · exact .inr (.inr (.inl h))
    · exact .inl h
  · exact iff_of_true rfl (.inr (.inr (.inr (.inl h2))))
  · exact iff_of_true rfl (.inr (.inr (.inr (.inr (.inl h3)))))
  · exact iff_of_true rfl (.inr (.inr (.inr (.inr (.inr (.inl h4))))))
  · exact iff_of_true rfl (.inr (.inr (.inr (.inr (.inr (.inr (.inl h5)))))))
  · refine iff_of_true rfl ?_
    rcases h6 with h | h
    · exact .inr (.inr (.inr (.inr (.inr (.inr (.inr (.inl h)))))))
    · exact .inr (.inr (.inr (.inr (.inr (.inr (.inr (.inr (.inl h))))))))
  · exact iff_of_true rfl
      (.inr (.inr (.inr (.inr (.inr (.inr (.inr (.inr (.inr h7)))))))))
  · refine iff_of_false (by simp) ?_
    rintro (h | h | h | h | h | h | h | h | h | h)
    · exact h1 (Or.inr (Or.inr h))
    · exact h1 (Or.inl h)
    · exact h1 (Or.inr (Or.inl h))
    · exact h2 h
    · exact h3 h
    · exact h4 h
    · exact h5 h
    · exact h6 (Or.inl h)
    · exact h6 (Or.inr h)
    · exact h7 h

theorem parseIPv4_render (a b c d : Nat) (ha : a < 256) (hb : b < 256) (hc : c < 256)
    (hd : d < 256) :
    parseIPv4 (renderIpv4 a b c d) = some [a, b, c, d] := by
  simp only [parseIPv4, splitDot_render a b c d ha hb hc hd]
  rw [(ipv4PartOk_repr a ha).1, (ipv4PartOk_repr b hb).1, (ipv4PartOk_repr c hc).1,
    (ipv4PartOk_repr d hd).1, (ipv4PartOk_repr a ha).2, (ipv4PartOk_repr b hb).2,
    (ipv4PartOk_repr c hc).2, (ipv4PartOk_repr d hd).2]
  rfl

theorem isPrivateIp_render (a b c d : Nat) (ha : a < 256) (hb : b < 256) (hc : c < 256)
    (hd : d < 256) :
    isPrivateIp (renderIpv4 a b c d) = isPrivateIpv4 (renderIpv4 a b c d) := by
  have h4 : isIP (renderIpv4 a b c d) = 4 := by
    simp [isIP, parseIPv4_render a b c d ha hb hc hd]
  simp [isPrivateIp, h4]

/-! ## Fetch stops when validation fails -/

theorem fetchLoop_stops_on_invalid (dns : Dns) (net : Net) (fuel : Nat) (current : String)
    (trace : List String) (e : Err) (h : validateUrl dns current = .error e) :
    fetchLoop dns net (fuel + 1) current trace = (.error e, trace) := by
  simp [fetchLoop, h]

/-- C6: (i) on every dotted-quad rendering of four octets the IPv4
classifier returns `true` exactly on the union of the spec's blocked
ranges; (ii) a DNS-name hostname every resolved address of which is a
dotted quad in a blocked range is blocked; (iii) a request whose URL
fails validation produces that error with an empty fetch trace, hence
is rejected before any image fetch is attempted. -/
theorem claim_C6_ipv4_ranges :
    (∀ a b c d, a < 256 → b < 256 → c < 256 → d < 256 →
      (isPrivateIpv4 (renderIpv4 a b c d) = true ↔ SpecPrivateIpv4 a b c d)) ∧
    (∀ dns h l, isIP h = 0 → dns h = some l → l ≠ [] →
      (∀ s ∈ l, ∃ a b c d, a < 256 ∧ b < 256 ∧ c < 256 ∧ d < 256 ∧
        s = renderIpv4 a b c d ∧ SpecPrivateIpv4 a b c d) →
      (isBlockedHost dns h).1 = true) ∧
    (∀ dns net url e, validateUrl dns url = .error e →
      fetchWithRedirects dns net url = (.error e, [])) := by
  refine ⟨isPrivateIpv4_render, ?_, ?_⟩
  · intro dns h l hip hdns hne hall
    by_cases h1 : h = ""
    · simp [isBlockedHost, h1]
    · by_cases h2 : jsToLower h = "localhost" ∨ strEndsWith (jsToLower h) ".localhost" = true ∨
          strEndsWith (jsToLower h) ".local" = true
      · simp [isBlockedHost, h1, h2]
      · have h3 : ¬ isIP h ≠ 0 := not_ne_iff.mpr hip
        simp only [isBlockedHost, if_neg h1, if_neg h2, if_neg h3, hdns]
        obtain ⟨s, hs⟩ := List.exists_mem_of_ne_nil l hne
        obtain ⟨a, b, c, d, ha, hb, hc, hd, rfl, hspec⟩ := hall s hs
        refine List.any_eq_true.mpr ⟨_, hs, ?_⟩
        rw [isPrivateIp_render a b c d ha hb hc hd]
        exact (isPrivateIpv4_render a b c d ha hb hc hd).mpr hspec
  · intro dns net url e h
    exact fetchLoop_stops_on_invalid dns net MAX_REDIRECTS url [] e h

/-- Witness for C6: `10.0.0.1` is classified private, a host resolving
only to `10.0.0.1` is blocked, and a request for a URL with the literal
private host `10.0.0.1` fails with `BLOCKED_HOST` before any fetch. -/
theorem claim_C6_witness :
    isPrivateIpv4 (renderIpv4 10 0 0 1) = true ∧
    (isBlockedHost dnsMix "internal.test").1 = true ∧
    fetchWithRedirects dnsMix net5 "http://10.0.0.1/x" = (.error .blockedHost, []) := by
  refine ⟨?_, ?_, ?_⟩
  · exact (claim_C6_ipv4_ranges.1 10 0 0 1 (by decide) (by decide) (by decide)
      (by decide)).mpr (by decide)
  · refine claim_C6_ipv4_ranges.2.1 dnsMix "internal.test" ["10.0.0.1"] (by decide) rfl
      (by decide) ?_
    intro s hs
    simp only [List.mem_singleton] at hs
    subst hs
    exact ⟨10, 0, 0, 1, by decide, by decide, by decide, by decide, by decide, by decide⟩
  · exact claim_C6_ipv4_ranges.2.2 dnsMix net5 "http://10.0.0.1/x" .blockedHost rfl

/-! ## Bounded reader lemmas -/

theorem sumLens_cons (v : List Nat) (rest : List (List Nat)) :
    sumLens (v :: rest) = v.length + sumLens rest := by
  simp [sumLens]

theorem readLoop_buffered :
    ∀ (stream : List (List Nat)) (total : Nat) (chunks : List (List Nat)),
      total ≤ MAX_BYTES → (readLoop stream total chunks).2 ≤ MAX_BYTES := by
  intro stream
  induction stream with
  | nil => intro total chunks h; exact h
  | cons v rest ih =>
    intro total chunks h
    simp only [readLoop]
    split_ifs with hov
    · exact h
    · exact ih (total + v.length) (chunks ++ [v]) (by omega)

theorem readLoop_ok :
    ∀ (stream : List (List Nat)) (total : Nat) (chunks : List (List Nat)),
      total + sumLens stream ≤ MAX_BYTES →
      readLoop stream total chunks =
        (.ok (chunks.flatten ++ stream.flatten), total + sumLens stream) := by
  intro stream
  induction stream with
  | nil => intro total chunks h; simp [readLoop, sumLens]
  | cons v rest ih =>
    intro total chunks h
    rw [sumLens_cons] at h
    simp only [readLoop]
    rw [if_neg (by omega), ih (total + v.length) (chunks ++ [v]) (by omega)]
    simp [List.flatten_append, List.flatten_cons, List.append_assoc, sumLens_cons,
      Nat.add_assoc]

theorem readLoop_overflow :
    ∀ (stream : List (List Nat)) (total : Nat) (chunks : List (List Nat)),
      total ≤ MAX_BYTES → MAX_BYTES < total + sumLens stream →
      (readLoop stream total chunks).1 = .error .maxSize := by
  intro stream
  induction stream with
  | nil =>
    intro total chunks h1 h2
    exfalso
    simp [sumLens] at h2
    omega
  | cons v rest ih =>
    intro total chunks h1 h2
    rw [sumLens_cons] at h2
    simp only [readLoop]
    split_ifs with hov
    · rfl
    · exact ih (total + v.length) (chunks ++ [v]) (by omega) (by omega)

/-- C7: the byte ceiling.  (i) the reader never buffers more than
`MAX_BYTES` bytes, for every stream; (ii) a stream within the ceiling is
returned whole; (iii) a stream whose cumulative length exceeds the
ceiling fails with `MAX_SIZE` the moment the running count passes the
ceiling; (iv) any successfully returned body is at most `MAX_BYTES`
long; (v) in the handler, a `Content-Length` header that numerically
exceeds the ceiling produces the 413 response without entering the
body-reading stage. -/
theorem claim_C7_byte_ceiling :
    (∀ stream, (readStreamWithLimit stream).2 ≤ MAX_BYTES) ∧
    (∀ chunks, sumLens chunks ≤ MAX_BYTES →
      readStreamWithLimit (some chunks) = (.ok chunks.flatten, sumLens chunks)) ∧
    (∀ chunks, MAX_BYTES < sumLens chunks →
      (readStreamWithLimit (some chunks)).1 = .error .maxSize) ∧
    (∀ stream bytes n, readStreamWithLimit stream = (.ok bytes, n) →
      bytes.length ≤ MAX_BYTES) ∧
    (∀ dns net rawUrl response fetched n, rawUrl ≠ "" →
      fetchWithRedirects dns net rawUrl = (.ok response, fetched) →
      strStartsWith (jsToLower (response.contentType.getD "")) "image/" = true →
      jsTruthy response.contentLength = true →
      jsNumber (response.contentLength.getD "") = some n →
      MAX_BYTES < n →
      handlerT dns net "GET" (some rawUrl) =
        (⟨413, .text "Image too large", []⟩, ⟨fetched, false⟩)) := by
  refine ⟨?_, ?_, ?_, ?_, ?_⟩
  · intro stream
    cases stream with
    | none => exact Nat.zero_le _
    | some chunks => exact readLoop_buffered chunks 0 [] (Nat.zero_le _)
  · intro chunks h
    have := readLoop_ok chunks 0 [] (by omega)
    simpa [readStreamWithLimit] using this
  · intro chunks h
    exact readLoop_overflow chunks 0 [] (Nat.zero_le _) (by omega)
  · intro stream bytes n h
    cases stream with
    | none => simp [readStreamWithLimit] at h
    | some chunks =>
      by_cases hs : sumLens chunks ≤ MAX_BYTES
      · have heq := readLoop_ok chunks 0 [] (by omega)
        rw [readStreamWithLimit, heq] at h
        have hb : chunks.flatten = bytes := by
          have h1 := congrArg Prod.fst h
          simpa using h1
        rw [← hb, List.length_flatten]
        simpa [sumLens] using hs
      · have hov := readLoop_overflow chunks 0 [] (Nat.zero_le _) (by omega)
        rw [readStreamWithLimit] at h
        rw [h] at hov
        simp at hov
  · intro dns net rawUrl response fetched n hne hfetch hct hclt hnum hn
    simp only [handlerT]
    rw [if_neg (by decide), if_neg hne, hfetch]
    simp only [hct, if_pos rfl]
    rw [hclt, hnum]
    simp [jsGt, hn]

/-- Witness for C7: a small stream is returned whole, a stream one byte
over the ceiling aborts with `MAX_SIZE`, and an oversized
`Content-Length` yields 413 without entering the body-reading stage. -/
theorem claim_C7_witness :
    readStreamWithLimit (some [[1], [2, 3]]) = (.ok [1, 2, 3], 3) ∧
    (readStreamWithLimit (some [bigChunk])).1 = .error .maxSize ∧
    handlerT dnsEmpty netBigCL "GET" (some okUrl) =
      (⟨413, .text "Image too large", []⟩, ⟨[okUrl], false⟩) := by
  refine ⟨?_, ?_, ?_⟩
  · rw [claim_C7_byte_ceiling.2.1 [[1], [2, 3]] (by decide)]
    rfl
  · refine claim_C7_byte_ceiling.2.2.1 [bigChunk] ?_
    simp [sumLens, bigChunk]
  · exact claim_C7_byte_ceiling.2.2.2.2 dnsEmpty netBigCL okUrl clResponse [okUrl] 99999999
      (by decide) rfl rfl rfl rfl (by decide)

/-! ## Redirect loop lemmas -/

theorem fetchLoop_len (dns : Dns) (net : Net) :
    ∀ (fuel : Nat) (current : String) (trace : List String),
      ((fetchLoop dns net fuel current trace).2).length ≤ trace.length + fuel := by
  intro fuel
  induction fuel with
  | zero => intro current trace; simp [fetchLoop]
  | succ fuel ih =>
    intro current trace
    cases hv : validateUrl dns current with
    | error e => simp only [fetchLoop, hv]; omega
    | ok validated =>
      cases hn : net (urlToString validated) with
      | netFail => simp only [fetchLoop, hv, hn, List.length_append]; simp
      | aborted => simp only [fetchLoop, hv, hn, List.length_append]; simp
      | success response =>
        by_cases hr : response.status ∈ REDIRECT_STATUSES
        · cases hl : response.location with
          | none =>
            simp only [fetchLoop, hv, hn, if_pos hr, hl, List.length_append]
            simp
          | some loc =>
            by_cases he : loc = ""
            · simp only [fetchLoop, hv, hn, if_pos hr, hl, if_pos he, List.length_append]
              simp
            · cases hres : resolveURL loc validated with
              | none =>
                simp only [fetchLoop, hv, hn, if_pos hr, hl, if_neg he, hres,
                  List.length_append]
                simp
              | some next =>
                simp only [fetchLoop, hv, hn, if_pos hr, hl, if_neg he, hres]
                have := ih (urlToString next) (trace ++ [urlToString validated])
                simp only [List.length_append, List.length_cons, List.length_nil] at this
                omega
        · simp only [fetchLoop, hv, hn, if_neg hr, List.length_append]; simp

/-- C4: the redirect loop issues at most `MAX_REDIRECTS + 1` fetches
under every oracle; on a chain of exactly 5 redirects ending in a valid
public image it succeeds after fetching all six URLs; on a chain of 6
redirects it fails with `TOO_MANY_REDIRECTS` without ever fetching the
sixth redirect's target, and the handler surfaces that failure as the
generic 400. -/
theorem claim_C4_redirect_limit :
    (∀ dns net url, ((fetchWithRedirects dns net url).2).length ≤ MAX_REDIRECTS + 1) ∧
    fetchWithRedirects dnsEmpty net5 (chainUrl 0) =
      (.ok imageResponse,
        [chainUrl 0, chainUrl 1, chainUrl 2, chainUrl 3, chainUrl 4, chainUrl 5]) ∧
    (fetchWithRedirects dnsEmpty net6 (chainUrl 0)).1 = .error .tooManyRedirects ∧
    chainUrl 6 ∉ (fetchWithRedirects dnsEmpty net6 (chainUrl 0)).2 ∧
    handler dnsEmpty net6 "GET" (some (chainUrl 0)) =
      ⟨400, .text "Unable to fetch image", []⟩ := by
  refine ⟨?_, rfl, rfl, by decide, rfl⟩
  intro dns net url
  have := fetchLoop_len dns net (MAX_REDIRECTS + 1) url []
  simpa [fetchWithRedirects] using this

theorem validateUrl_ok_props (dns : Dns) (value : String) (u : URLRec)
    (h : validateUrl dns value = .ok u) :
    (u.protocol = "http:" ∨ u.protocol = "https:") ∧
      (isBlockedHost dns u.hostname).1 = false := by
  unfold validateUrl at h
  cases hp : parseURL value with
  | none => rw [hp] at h; exact absurd h (by simp)
  | some parsed =>
    rw [hp] at h
    have h2 : (if parsed.protocol ≠ "http:" ∧ parsed.protocol ≠ "https:" then
          (Except.error Err.invalidUrl : Except Err URLRec)
        else if (isBlockedHost dns parsed.hostname).1 = true then Except.error Err.blockedHost
        else Except.ok parsed) = Except.ok u := h
    clear h
    by_cases hproto : parsed.protocol ≠ "http:" ∧ parsed.protocol ≠ "https:"
    · rw [if_pos hproto] at h2; exact absurd h2 (by simp)
    · rw [if_neg hproto] at h2
      by_cases hb : (isBlockedHost dns parsed.hostname).1 = true
      · rw [if_pos hb] at h2; exact absurd h2 (by simp)
      · rw [if_neg hb] at h2
        simp only [Except.ok.injEq] at h2
        subst h2
        refine ⟨?_, by simpa using hb⟩
        by_cases h1 : parsed.protocol = "http:"
        · exact Or.inl h1
        · exact Or.inr (by tauto)

theorem fetchLoop_trace_inv (dns : Dns) (net : Net) (P : String → Prop)
    (hP : ∀ cur u, validateUrl dns cur = .ok u → P (urlToString u)) :
    ∀ (fuel : Nat) (current : String) (trace : List String),
      (∀ s ∈ trace, P s) → ∀ s ∈ (fetchLoop dns net fuel current trace).2, P s := by
  intro fuel
  induction fuel with
  | zero => intro current trace ht s hs; simp only [fetchLoop] at hs; exact ht s hs
  | succ fuel ih =>
    intro current trace ht s hs
    cases hv : validateUrl dns current with
    | error e => simp only [fetchLoop, hv] at hs; exact ht s hs
    | ok validated =>
      have hPt : P (urlToString validated) := hP current validated hv
      have ht2 : ∀ x ∈ trace ++ [urlToString validated], P x := by
        intro x hx
        rcases List.mem_append.mp hx with hx | hx
        · exact ht x hx
        · rw [List.mem_singleton.mp hx]; exact hPt
      cases hn : net (urlToString validated) with
      | netFail => simp only [fetchLoop, hv, hn] at hs; exact ht2 s hs
      | aborted => simp only [fetchLoop, hv, hn] at hs; exact ht2 s hs
      | success response =>
        by_cases hr : response.status ∈ REDIRECT_STATUSES
        · cases hl : response.location with
          | none =>
            simp only [fetchLoop, hv, hn, if_pos hr, hl] at hs
            exact ht2 s hs
          | some loc =>
            by_cases he : loc = ""
            · simp only [fetchLoop, hv, hn, if_pos hr, hl, if_pos he] at hs
              exact ht2 s hs
            · cases hres : resolveURL loc validated with
              | none =>
                simp only [fetchLoop, hv, hn, if_pos hr, hl, if_neg he, hres] at hs
                exact ht2 s hs
              | some next =>
                simp only [fetchLoop, hv, hn, if_pos hr, hl, if_neg he, hres] at hs
                exact ih (urlToString next) (trace ++ [urlToString validated]) ht2 s hs
        · simp only [fetchLoop, hv, hn, if_neg hr] at hs; exact ht2 s hs

theorem handlerT_fetched (dns : Dns) (net : Net) (method : String)
    (queryUrl : Option String) :
    (handlerT dns net method queryUrl).2.fetched = [] ∨
    ∃ rawUrl, queryUrl = some rawUrl ∧
      (handlerT dns net method queryUrl).2.fetched = (fetchWithRedirects dns net rawUrl).2 := by
  unfold handlerT
  split
  · exact Or.inl rfl
  · split
    · exact Or.inl rfl
    · rename_i rawUrl
      split
      · exact Or.inl rfl
      · refine Or.inr ⟨rawUrl, rfl, ?_⟩
        split
        · rename_i e fetched heq
          rw [heq]
        · rename_i response fetched heq
          rw [heq]
          simp only []
          repeat' split
          all_goals rfl

/-- C1: every URL the handler ever fetches — the original URL and every
redirect target alike — is the serialization of a URL record that passed
the full `validateUrl` for this request before that fetch: its scheme is
http or https and its host was found unblocked by the host-safety check
at validation time. -/
theorem claim_C1_validate_before_fetch (dns : Dns) (net : Net) (method : String)
    (queryUrl : Option String) :
    ∀ s ∈ (handlerT dns net method queryUrl).2.fetched,
      ∃ cur u, validateUrl dns cur = .ok u ∧ s = urlToString u ∧
        (u.protocol = "http:" ∨ u.protocol = "https:") ∧
        (isBlockedHost dns u.hostname).1 = false := by
  intro s hs
  rcases handlerT_fetched dns net method queryUrl with hempty | ⟨rawUrl, -, heq⟩
  · rw [hempty] at hs; exact absurd hs (List.not_mem_nil s)
  · rw [heq] at hs
    refine fetchLoop_trace_inv dns net
      (fun t => ∃ cur u, validateUrl dns cur = .ok u ∧ t = urlToString u ∧
        (u.protocol = "http:" ∨ u.protocol = "https:") ∧
        (isBlockedHost dns u.hostname).1 = false)
      ?_ (MAX_REDIRECTS + 1) rawUrl [] (by intro x hx; exact absurd hx (List.not_mem_nil x))
      s hs
    intro cur u hok
    exact ⟨cur, u, hok, rfl, (validateUrl_ok_props dns cur u hok).1,
      (validateUrl_ok_props dns cur u hok).2⟩

/-- Witness for C1: the first URL fetched in the 5-redirect scenario is
a validated URL with an unblocked host. -/
theorem claim_C1_witness :
    ∃ cur u, validateUrl dnsEmpty cur = .ok u ∧ chainUrl 0 = urlToString u ∧
      (u.protocol = "http:" ∨ u.protocol = "https:") ∧
      (isBlockedHost dnsEmpty u.hostname).1 = false :=
  claim_C1_validate_before_fetch dnsEmpty net5 "GET" (some (chainUrl 0)) (chainUrl 0)
    (by decide)

/-! ## Handler response shape -/

/-- Every error that reaches the catch block maps to one of the three
fixed error responses. -/
theorem errorResponse_mem (e : Err) :
    errorResponse e ∈ ([⟨405, .text "Method not allowed", []⟩, ⟨400, .text "Missing url", []⟩,
      ⟨400, .text "Not an image", []⟩, ⟨504, .text "Timeout", []⟩,
      ⟨413, .text "Image too large", []⟩,
      ⟨400, .text "Unable to fetch image", []⟩] : List HttpResponse) := by
  cases e <;> simp [errorResponse]

/-- C9: whenever the fetch stage returns a terminal response that passes
the content-type check and the advance content-length check and whose
body streams within the ceiling, the handler answers 200 with exactly
the buffered bytes, the forwarded content type, the actual byte count as
`Content-Length`, and the fixed `Cache-Control` value. -/
theorem claim_C9_success_response (dns : Dns) (net : Net) (rawUrl : String)
    (response : Response) (fetched : List String) (bytes : List Nat) (n : Nat)
    (hne : rawUrl ≠ "")
    (hfetch : fetchWithRedirects dns net rawUrl = (.ok response, fetched))
    (hct : strStartsWith (jsToLower (response.contentType.getD "")) "image/" = true)
    (hcl : (jsTruthy response.contentLength &&
      jsGt (jsNumber (response.contentLength.getD "")) MAX_BYTES) = false)
    (hread : readStreamWithLimit response.body = (.ok bytes, n)) :
    handlerT dns net "GET" (some rawUrl) =
      (⟨200, .bytes bytes,
        [("Content-Type", response.contentType.getD ""),
         ("Cache-Control", "public, max-age=86400"),
         ("Content-Length", Nat.repr bytes.length)]⟩, ⟨fetched, true⟩) := by
  simp only [handlerT]
  rw [if_neg (by decide), if_neg hne, hfetch]
  simp only []
  rw [if_pos hct, if_neg (by simp [hcl]), hread]

/-- Witness for C9: the 5-redirect chain ends in a three-byte PNG that
is returned verbatim with the forwarded headers. -/
theorem claim_C9_witness :
    handlerT dnsEmpty net5 "GET" (some (chainUrl 0)) =
      (⟨200, .bytes [10, 20, 30],
        [("Content-Type", "image/png"),
         ("Cache-Control", "public, max-age=86400"),
         ("Content-Length", "3")]⟩,
       ⟨[chainUrl 0, chainUrl 1, chainUrl 2, chainUrl 3, chainUrl 4, chainUrl 5], true⟩) :=
  claim_C9_success_response dnsEmpty net5 (chainUrl 0) imageResponse
    [chainUrl 0, chainUrl 1, chainUrl 2, chainUrl 3, chainUrl 4, chainUrl 5]
    [10, 20, 30] 3 (by decide) rfl rfl rfl rfl

/-- C8: the handler's response is always one of the fixed status/body
pairs of the interface table (or a 200 whose body is the image bytes),
and each condition of the table produces exactly its row: non-GET gives
405 with no further processing; a missing or empty `url` gives 400
`Missing url`; a non-image content type gives 400 `Not an image`
without entering the body read; an abort of the deadline signal gives
504 `Timeout`; a stream passing the ceiling gives 413 `Image too
large`; and every other fetch-stage failure gives 400 `Unable to fetch
image`. -/
theorem claim_C8_response_table :
    (∀ dns net method q,
      (handlerT dns net method q).1.status = 200 ∨
      (handlerT dns net method q).1 ∈
        ([⟨405, .text "Method not allowed", []⟩, ⟨400, .text "Missing url", []⟩,
          ⟨400, .text "Not an image", []⟩, ⟨504, .text "Timeout", []⟩,
          ⟨413, .text "Image too large", []⟩,
          ⟨400, .text "Unable to fetch image", []⟩] : List HttpResponse)) ∧
    (∀ dns net method q, method ≠ "GET" →
      handlerT dns net method q =
        (⟨405, .text "Method not allowed", []⟩, ⟨[], false⟩)) ∧
    (∀ dns net,
      handlerT dns net "GET" none = (⟨400, .text "Missing url", []⟩, ⟨[], false⟩) ∧
      handlerT dns net "GET" (some "") = (⟨400, .text "Missing url", []⟩, ⟨[], false⟩)) ∧
    (∀ dns net rawUrl response fetched, rawUrl ≠ "" →
      fetchWithRedirects dns net rawUrl = (.ok response, fetched) →
      strStartsWith (jsToLower (response.contentType.getD "")) "image/" = false →
      handlerT dns net "GET" (some rawUrl) =
        (⟨400, .text "Not an image", []⟩, ⟨fetched, false⟩)) ∧
    (∀ dns net rawUrl fetched, rawUrl ≠ "" →
      fetchWithRedirects dns net rawUrl = (.error .aborted, fetched) →
      handlerT dns net "GET" (some rawUrl) =
        (⟨504, .text "Timeout", []⟩, ⟨fetched, false⟩)) ∧
    (∀ dns net rawUrl e fetched, rawUrl ≠ "" →
      e ∈ ([.invalidUrl, .blockedHost, .redirectError, .tooManyRedirects,
        .networkError] : List Err) →
      fetchWithRedirects dns net rawUrl = (.error e, fetched) →
      handlerT dns net "GET" (some rawUrl) =
        (⟨400, .text "Unable to fetch image", []⟩, ⟨fetched, false⟩)) ∧
    (∀ dns net rawUrl response fetched, rawUrl ≠ "" →
      fetchWithRedirects dns net rawUrl = (.ok response, fetched) →
      strStartsWith (jsToLower (response.contentType.getD "")) "image/" = true →
      (jsTruthy response.contentLength &&
        jsGt (jsNumber (response.contentLength.getD "")) MAX_BYTES) = false →
      (readStreamWithLimit response.body).1 = .error .maxSize →
      handlerT dns net "GET" (some rawUrl) =
        (⟨413, .text "Image too large", []⟩, ⟨fetched, true⟩)) := by
  refine ⟨?_, ?_, ?_, ?_, ?_, ?_, ?_⟩
  · intro dns net method q
    simp only [handlerT]
    repeat' split
    all_goals first
      | exact Or.inl rfl
      | exact Or.inr (errorResponse_mem _)
      | exact Or.inr (by simp)
  · intro dns net method q hm
    simp only [handlerT, if_pos hm]
  · exact fun dns net => ⟨rfl, rfl⟩
  · intro dns net rawUrl response fetched hne hfetch hct
    simp only [handlerT]
    rw [if_neg (by decide), if_neg hne, hfetch]
    simp only []
    rw [if_neg (by simp [hct])]
  · intro dns net rawUrl fetched hne hfetch
    simp only [handlerT]
    rw [if_neg (by decide), if_neg hne, hfetch]
    rfl
  · intro dns net rawUrl e fetched hne he hfetch
    simp only [handlerT]
    rw [if_neg (by decide), if_neg hne, hfetch]
    cases e <;> first | rfl | exact absurd he (by decide)
  · intro dns net rawUrl response fetched hne hfetch hct hcl hread
    simp only [handlerT]
    rw [if_neg (by decide), if_neg hne, hfetch]
    simp only []
    rw [if_pos hct, if_neg (by simp [hcl])]
    rcases hrs : readStreamWithLimit response.body with ⟨r, m⟩
    rw [hrs] at hread
    have hr : r = .error .maxSize := hread
    subst hr
    rfl

/-- Witness for C8: one concrete request per row of the table. -/
theorem claim_C8_witness :
    handlerT dnsEmpty netAbort "POST" none =
      (⟨405, .text "Method not allowed", []⟩, ⟨[], false⟩) ∧
    handlerT dnsEmpty netNotImage "GET" (some okUrl) =
      (⟨400, .text "Not an image", []⟩, ⟨[okUrl], false⟩) ∧
    handlerT dnsEmpty netAbort "GET" (some okUrl) =
      (⟨504, .text "Timeout", []⟩, ⟨[okUrl], false⟩) ∧
    handlerT dnsEmpty netAbort "GET" (some "http://127.0.0.1/") =
      (⟨400, .text "Unable to fetch image", []⟩, ⟨[], false⟩) ∧
    handlerT dnsEmpty netBig "GET" (some okUrl) =
      (⟨413, .text "Image too large", []⟩, ⟨[okUrl], true⟩) := by
  have hbody : ∀ (r : Response) (chunks : List (List Nat)), r.body = some chunks →
      MAX_BYTES < sumLens chunks → (readStreamWithLimit r.body).1 = .error .maxSize := by
    intro r chunks hb h
    rw [hb]
    exact readLoop_overflow chunks 0 [] (Nat.zero_le _) (by omega)
  have hread : (readStreamWithLimit bigResponse.body).1 = .error .maxSize :=
    hbody bigResponse [bigChunk] rfl
      (by simp only [sumLens, List.map_cons, List.map_nil, List.sum_cons, List.sum_nil,
        bigChunk, List.length_replicate]; omega)
  refine ⟨?_, ?_, ?_, ?_, ?_⟩
  · exact claim_C8_response_table.2.1 dnsEmpty netAbort "POST" none (by decide)
  · exact claim_C8_response_table.2.2.2.1 dnsEmpty netNotImage okUrl
      ⟨200, none, some "text/html", none, some [[1]]⟩ [okUrl] (by decide) rfl rfl
  · exact claim_C8_response_table.2.2.2.2.1 dnsEmpty netAbort okUrl [okUrl] (by decide) rfl
  · exact claim_C8_response_table.2.2.2.2.2.1 dnsEmpty netAbort "http://127.0.0.1/"
      .blockedHost [] (by decide) (by decide) rfl
  · exact claim_C8_response_table.2.2.2.2.2.2 dnsEmpty netBig okUrl bigResponse [okUrl]
      (by decide) rfl rfl rfl hread

/-- C10: a URL with a bracketed IPv6 literal host parses with the
brackets kept in `hostname` (as the WHATWG `URL` class does), the
bracketed string is not recognized by `net.isIP`, so the host check
falls through to a DNS lookup of the bracketed string; when that lookup
fails the host is treated as blocked and the request is answered with
the generic 400 before any fetch — even though the bare address
`2606:4700::1` is public by the IPv6 classifier. -/
theorem claim_C10_bracketed_ipv6 (dns : Dns) (net : Net)
    (hd : dns "[2606:4700::1]" = none) :
    parseURL "http://[2606:4700::1]/" = some ⟨"http:", "[2606:4700::1]", "", "/"⟩ ∧
    isIP "[2606:4700::1]" = 0 ∧
    isPrivateIp "2606:4700::1" = false ∧
    isBlockedHost dns "[2606:4700::1]" = (true, ["[2606:4700::1]"]) ∧
    handlerT dns net "GET" (some "http://[2606:4700::1]/") =
      (⟨400, .text "Unable to fetch image", []⟩, ⟨[], false⟩) := by
  have hb : isBlockedHost dns "[2606:4700::1]" = (true, ["[2606:4700::1]"]) := by
    simp only [isBlockedHost]
    rw [if_neg (by decide), if_neg (by decide), if_neg (by decide), hd]
  have hv : validateUrl dns "http://[2606:4700::1]/" = .error .blockedHost := by
    have h2 : validateUrl dns "http://[2606:4700::1]/" =
        (if ("http:" : String) ≠ "http:" ∧ ("http:" : String) ≠ "https:" then
          (Except.error Err.invalidUrl : Except Err URLRec)
        else if (isBlockedHost dns "[2606:4700::1]").1 = true then Except.error Err.blockedHost
        else Except.ok ⟨"http:", "[2606:4700::1]", "", "/"⟩) := rfl
    rw [h2, if_neg (by decide), hb]
    rfl
  have hf : fetchWithRedirects dns net "http://[2606:4700::1]/" =
      (.error .blockedHost, []) :=
    fetchLoop_stops_on_invalid dns net MAX_REDIRECTS "http://[2606:4700::1]/" []
      .blockedHost hv
  refine ⟨rfl, rfl, rfl, hb, ?_⟩
  simp only [handlerT]
  rw [if_neg (by decide), if_neg (by decide), hf]
  rfl

/-- Witness for C10: the same facts under the concrete empty DNS
oracle. -/
theorem claim_C10_witness :
    parseURL "http://[2606:4700::1]/" = some ⟨"http:", "[2606:4700::1]", "", "/"⟩ ∧
    isIP "[2606:4700::1]" = 0 ∧
    isPrivateIp "2606:4700::1" = false ∧
    isBlockedHost dnsEmpty "[2606:4700::1]" = (true, ["[2606:4700::1]"]) ∧
    handlerT dnsEmpty netAbort "GET" (some "http://[2606:4700::1]/") =
      (⟨400, .text "Unable to fetch image", []⟩, ⟨[], false⟩) :=
  claim_C10_bracketed_ipv6 dnsEmpty netAbort rfl

/-! ## The IPv6 classifier versus the spec ranges -/

/-- C2 counterexample: `fe81::1` is a valid IPv6 address
(`net.isIP` = 6) lying inside the link-local range `fe80::/10`
(first group `0xfe81 ∈ [0xfe80, 0xfebf]`), yet the classifier does not
treat it as private and the host-safety check does not block it: the
code tests the textual prefix `fe80:` — the `fe80::/16` sixteenth of
the link-local range — not `fe80::/10`. -/
theorem claim_C2_counterexample :
    parseIPv6 "fe81::1" = some [0xfe81, 0, 0, 0, 0, 0, 0, 1] ∧
    ipv6InFe80Slash10 [0xfe81, 0, 0, 0, 0, 0, 0, 1] = true ∧
    isIP "fe81::1" = 6 ∧
    isPrivateIpv6 "fe81::1" = false ∧
    isPrivateIp "fe81::1" = false ∧
    (isBlockedHost dnsEmpty "fe81::1").1 = false :=
  ⟨rfl, rfl, rfl, rfl, rfl, rfl⟩

theorem mapped_data (r : String) :
    ("::ffff:" ++ r).data = ':' :: ':' :: 'f' :: 'f' :: 'f' :: 'f' :: ':' :: r.data := by
  rw [strDataApp]
  rfl

theorem jsToLower_mapped (a b c d : Nat) (ha : a < 256) (hb : b < 256) (hc : c < 256)
    (hd : d < 256) :
    jsToLower ("::ffff:" ++ renderIpv4 a b c d) = "::ffff:" ++ renderIpv4 a b c d := by
  have key : ∀ t : String, t.data.map Char.toLower = t.data → jsToLower t = t := by
    intro t h
    simp only [jsToLower, h]
  apply key
  simp only [strDataApp, renderIpv4_data, List.map_append, List.map_cons, List.map_nil,
    toLower_repr a ha, toLower_repr b hb, toLower_repr c hc, toLower_repr d hd]
  rfl

/-- C2 amended: the classifier blocks the exact strings `::1` and `::`,
every address whose lowercased text begins with `fe80:` (the
`fe80::/16` textual subset of link-local, not all of `fe80::/10`),
every address whose lowercased text begins with `fc` or `fd` (which
covers all of `fc00::/7`), and exactly those IPv4-mapped addresses
`::ffff:a.b.c.d` whose embedded dotted quad lies in a blocked IPv4
range. -/
theorem claim_C2_amended :
    (∀ s : String,
      (jsToLower s = "::1" ∨ jsToLower s = "::" ∨
        strStartsWith (jsToLower s) "fe80:" = true ∨
        strStartsWith (jsToLower s) "fc" = true ∨
        strStartsWith (jsToLower s) "fd" = true) →
      isPrivateIpv6 s = true) ∧
    (∀ a b c d, a < 256 → b < 256 → c < 256 → d < 256 →
      (isPrivateIpv6 ("::ffff:" ++ renderIpv4 a b c d) = true ↔
        SpecPrivateIpv4 a b c d)) := by
  constructor
  · intro s h
    simp only [isPrivateIpv6]
    rcases h with h | h | h | h | h
    · rw [h, if_pos (Or.inl rfl)]
    · rw [h, if_pos (Or.inr rfl)]
    · by_cases h1 : jsToLower s = "::1" ∨ jsToLower s = "::"
      · rw [if_pos h1]
      · rw [if_neg h1, if_pos h]
    · by_cases h1 : jsToLower s = "::1" ∨ jsToLower s = "::"
      · rw [if_pos h1]
      · by_cases h2 : strStartsWith (jsToLower s) "fe80:" = true
        · rw [if_neg h1, if_pos h2]
        · rw [if_neg h1, if_neg h2, if_pos (by simp [h])]
    · by_cases h1 : jsToLower s = "::1" ∨ jsToLower s = "::"
      · rw [if_pos h1]
      · by_cases h2 : strStartsWith (jsToLower s) "fe80:" = true
        · rw [if_neg h1, if_pos h2]
        · rw [if_neg h1, if_neg h2, if_pos (by simp [h])]
  · intro a b c d ha hb hc hd
    have hlow := jsToLower_mapped a b c d ha hb hc hd
    have hne1 : ¬ ("::ffff:" ++ renderIpv4 a b c d = "::1") := by
      intro hcontra
      have hlen := congrArg (fun t => t.data.length) hcontra
      simp only [mapped_data, List.length_cons,
        show ("::1" : String).data.length = 3 from rfl] at hlen
      omega
    have hne2 : ¬ ("::ffff:" ++ renderIpv4 a b c d = "::") := by
      intro hcontra
      have hlen := congrArg (fun t => t.data.length) hcontra
      simp only [mapped_data, List.length_cons,
        show ("::" : String).data.length = 2 from rfl] at hlen
      omega
    have hfe : strStartsWith ("::ffff:" ++ renderIpv4 a b c d) "fe80:" = false := rfl
    have hfc : strStartsWith ("::ffff:" ++ renderIpv4 a b c d) "fc" = false := rfl
    have hfd : strStartsWith ("::ffff:" ++ renderIpv4 a b c d) "fd" = false := rfl
    have hff : strStartsWith ("::ffff:" ++ renderIpv4 a b c d) "::ffff:" = true := rfl
    have hrepl : replaceFirst ("::ffff:" ++ renderIpv4 a b c d) "::ffff:" "" =
        renderIpv4 a b c d := rfl
    simp only [isPrivateIpv6, hlow]
    rw [if_neg (not_or.mpr ⟨hne1, hne2⟩), if_neg (by simp [hfe]),
      if_neg (by simp [hfc, hfd]), if_pos hff, hrepl]
    exact isPrivateIpv4_render a b c d ha hb hc hd

/-- Witness for the amended C2: `fc00::1` is blocked through the
textual `fc` test, and the IPv4-mapped rendering of `10.0.0.1` is
blocked exactly because `10.0.0.1` is in a blocked range. -/
theorem claim_C2_witness :
    isPrivateIpv6 "fc00::1" = true ∧
    isPrivateIpv6 ("::ffff:" ++ renderIpv4 10 0 0 1) = true := by
  constructor
  · exact claim_C2_amended.1 "fc00::1" (Or.inr (Or.inr (Or.inr (Or.inl rfl))))
  · exact (claim_C2_amended.2 10 0 0 1 (by decide) (by decide) (by decide)
      (by decide)).mpr (by decide)

/-- Witness for C3: two of the literal targets under the concrete empty
DNS oracle. -/
theorem claim_C3_witness :
    isBlockedHost dnsEmpty "127.0.0.1" = (true, []) ∧
    isBlockedHost dnsEmpty "::1" = (true, []) :=
  ⟨(claim_C3_literal_ip_no_dns.2 dnsEmpty).1,
    (claim_C3_literal_ip_no_dns.2 dnsEmpty).2.2.1⟩

/-- Witness for C4: the fetch-count bound at a concrete oracle. -/
theorem claim_C4_witness :
    ((fetchWithRedirects dnsEmpty netAbort (chainUrl 0)).2).length ≤ MAX_REDIRECTS + 1 :=
  claim_C4_redirect_limit.1 dnsEmpty netAbort (chainUrl 0)
